import Mathlib

/-!
Shallow embedding of the Vein blood-donation server (`src/index.js`).

The server is a set of Express route handlers over four MongoDB
collections (`users`, `donationRequests`, `notifications`, `fundings`).
Each handler is modelled as a pure function from an explicit database
state `DB` (plus the request parameters and the current date/time) to a
new state and a response.  Calendar dates appear in the source as ISO
`YYYY-MM-DD` strings compared with `<` (JavaScript string comparison and
MongoDB `$lt` on strings are both lexicographic, which coincides with
chronological order on such strings), so dates are modelled as `String`
ordered lexicographically; a document that lacks the `donationDate`
field is modelled as `none` (MongoDB `$lt : string` does not match a
missing field, and in JavaScript `undefined < s` is `false`).
MongoDB-generated `_id` values are modelled as `Nat` drawn from per-
collection counters in the state.  Timestamps (`new Date()`) are an
opaque `Nat` parameter `now`.
-/

namespace Vein

/-- A document of the `users` collection (`usersCollection`). -/
structure User where
  email : String
  name : String
  role : String
  status : String
  bloodGroup : String
  district : String
  upazila : String
  deriving Repr, DecidableEq

/-- A document of the `donationRequests` collection
(`requestsCollection`).  `donationDate` is `none` when the document has
no such field. -/
structure Request where
  rid : Nat
  requesterEmail : String
  bloodGroup : String
  recipientDistrict : String
  donationDate : Option String
  donationStatus : String
  createdAt : Nat
  deriving Repr, DecidableEq

/-- A document of the `notifications` collection
(`notificationsCollection`).  The targeted status-change notification is
inserted without a `link` field, modelled as `link = none`. -/
structure Notif where
  nid : Nat
  email : String
  message : String
  link : Option String
  isRead : Bool
  createdAt : Nat
  deriving Repr, DecidableEq

/-- The persistent state: the collections the modelled routes touch,
plus counters for generated `_id`s. -/
structure DB where
  users : List User
  requests : List Request
  notifs : List Notif
  nextReqId : Nat
  nextNotifId : Nat
  deriving Repr, DecidableEq

/-- Error responses a modelled route can send before (or instead of)
touching the store: HTTP 403 `forbidden access` and HTTP 400 with a
message. -/
inductive ApiErr where
  | forbidden
  | badRequest (msg : String)
  deriving Repr, DecidableEq

/-- MongoDB `updateOne`: apply `f` to the first element satisfying `p`,
leave everything else in place. -/
def updateFirst (p : α → Bool) (f : α → α) : List α → List α
  | [] => []
  | x :: xs => if p x then f x :: xs else x :: updateFirst p f xs

/-- Lexicographic comparison of character lists: the order JavaScript
`<` and MongoDB `$lt` use on (ASCII) strings. -/
def strLtb : List Char → List Char → Bool
  | [], [] => false
  | [], _ :: _ => true
  | _ :: _, [] => false
  | a :: as, b :: bs =>
      if a < b then true else if b < a then false else strLtb as bs

/-- `s < t` on date strings. -/
def strLt (s t : String) : Bool := strLtb s.data t.data

/-- `donationDate: { $lt: todayStr }` / `checkRequest.donationDate <
todayStr`: a missing date never compares below `today`. -/
def dateLt (d : Option String) (today : String) : Bool :=
  match d with
  | some s => strLt s today
  | none => false

/-- The date guard of `POST /donation-requests`: `if
(request.donationDate)` (so a missing or empty — falsy — date is not
checked) followed by the day-granularity comparison `reqDate < today`.
On ISO date strings the `Date`-object comparison with hours zeroed
coincides with lexicographic string comparison. -/
def isPastDate (d : Option String) (today : String) : Bool :=
  match d with
  | some s => !(s == "") && strLt s today
  | none => false

/-- Insert one notification document, assigning the next generated id
(`insertOne` on `notificationsCollection`). -/
def insertNotif (email message : String) (link : Option String) (now : Nat)
    (db : DB) : DB :=
  { db with
    notifs := db.notifs ++
      [{ nid := db.nextNotifId, email := email, message := message,
         link := link, isRead := false, createdAt := now }],
    nextNotifId := db.nextNotifId + 1 }

/-- Insert a batch of notification documents (`insertMany`), one per
item `(email, message, link)`, assigning consecutive generated ids. -/
def insertNotifMany (items : List (String × String × Option String)) (now : Nat)
    (db : DB) : DB :=
  { db with
    notifs := db.notifs ++ items.enum.map (fun p =>
      { nid := db.nextNotifId + p.1, email := p.2.1, message := p.2.2.1,
        link := p.2.2.2, isRead := false, createdAt := now }),
    nextNotifId := db.nextNotifId + items.length }

/-- `startsWithChars hay pat` : `pat` is an initial segment of `hay`. -/
def startsWithChars : List Char → List Char → Bool
  | _, [] => true
  | [], _ :: _ => false
  | a :: as, b :: bs => a == b && startsWithChars as bs

/-- `containsChars hay pat` : `pat` occurs contiguously in `hay`. -/
def containsChars : List Char → List Char → Bool
  | [], pat => pat.isEmpty
  | a :: as, pat => startsWithChars (a :: as) pat || containsChars as pat

/-- ASCII lowercase of one character (the case folding the `/…/i` flag
performs on the ASCII patterns `admin` and `volunteer`). -/
def lowerChar (c : Char) : Char :=
  if 65 ≤ c.toNat ∧ c.toNat ≤ 90 then Char.ofNat (c.toNat + 32) else c

/-- ASCII lowercase of a character list. -/
def lowerChars (l : List Char) : List Char := l.map lowerChar

/-- The regex test `role: /admin/i` (resp. `/volunteer/i`): the role
string contains the pattern, ignoring case. -/
def roleMatchCI (role pat : String) : Bool :=
  containsChars (lowerChars role.data) (lowerChars pat.data)

/-- The `$or` recipient query of the creation fan-out
(`POST /donation-requests`): matching active donors by exact blood
group and district, plus active users whose role matches `/admin/i` or
`/volunteer/i`. -/
def matchRecipient (bg dist : String) (u : User) : Bool :=
  (u.role == "donor" && u.status == "active" &&
    u.bloodGroup == bg && u.district == dist)
  || (roleMatchCI u.role "admin" && u.status == "active")
  || (roleMatchCI u.role "volunteer" && u.status == "active")

/-- Modelled from the spec (for comparison with `matchRecipient`, which
is the code's query): the Recipient Matcher of spec §4.4 as the claim
reads it — active donors with identical bloodGroup+district, plus all
active users whose role *is* `admin` or `volunteer`, role comparison
case-insensitive (equality, not containment). -/
def specMatchRecipient (bg dist : String) (u : User) : Bool :=
  (u.role == "donor" && u.status == "active" &&
    u.bloodGroup == bg && u.district == dist)
  || (lowerChars u.role.data == "admin".data && u.status == "active")
  || (lowerChars u.role.data == "volunteer".data && u.status == "active")

/-- `.sort({ createdAt: -1 })`: stable insertion of one request into a
list already sorted by `createdAt` descending. -/
def insertByCreatedAtDesc (r : Request) : List Request → List Request
  | [] => [r]
  | x :: xs =>
      if r.createdAt ≤ x.createdAt then x :: insertByCreatedAtDesc r xs
      else r :: x :: xs

/-- `.sort({ createdAt: -1 })`: sort by `createdAt`, newest first. -/
def sortByCreatedAtDesc : List Request → List Request
  | [] => []
  | x :: xs => insertByCreatedAtDesc x (sortByCreatedAtDesc xs)

/-- The sweep predicate of `GET /donation-requests`: `donationStatus:
"pending", donationDate: { $lt: todayStr }`. -/
def sweepable (today : String) (r : Request) : Bool :=
  r.donationStatus == "pending" && dateLt r.donationDate today

/-- The `$set` of the sweep: transition to `expired`. -/
def expireIf (today : String) (r : Request) : Request :=
  if sweepable today r then { r with donationStatus := "expired" } else r

/-- `GET /donation-requests` — `updateMany` every pending past-due
request to `expired`, then return all requests sorted by `createdAt`
descending. -/
def listAll (today : String) (db : DB) : DB × List Request :=
  let swept := db.requests.map (expireIf today)
  ({ db with requests := swept }, sortByCreatedAtDesc swept)

/-- `GET /donation-requests/my?email=` — 403 unless the token email
equals the query email; then `updateMany` the sweep restricted to
`requesterEmail: email`, and return that user's requests.  Every route
result pairs the state after the call with the response, so an error
response carrying the unchanged state says the handler wrote nothing. -/
def listMine (caller email today : String) (db : DB) :
    DB × Except ApiErr (List Request) :=
  if caller ≠ email then (db, .error .forbidden)
  else
    let swept := db.requests.map (fun r =>
      if r.requesterEmail == email then expireIf today r else r)
    ({ db with requests := swept },
     .ok (swept.filter (fun r => r.requesterEmail == email)))

/-- The body of `POST /donation-requests` (the fields the modelled
routes read; `donationDate` is `none` when the field is absent).  Any
client-supplied `donationStatus` is overwritten by the handler. -/
structure ReqBody where
  requesterEmail : String
  bloodGroup : String
  recipientDistrict : String
  donationDate : Option String
  deriving Repr, DecidableEq

/-- The notification built for one fan-out recipient of a newly created
request. -/
def fanoutItem (newReq : Request) (u : User) : String × String × Option String :=
  (u.email,
   "New " ++ newReq.bloodGroup ++ " blood request in " ++
     newReq.recipientDistrict ++ "!",
   some ("/donation-requests/" ++ toString newReq.rid))

/-- `POST /donation-requests` — reject a (truthy) past `donationDate`
with 400 before inserting; otherwise insert the request with
`donationStatus: "pending"` and a fresh `createdAt`, then run the
community-notification fan-out inside a `try/catch`.  `notifyFails`
models a failure thrown inside that `try` block: the catch swallows it,
so the notifications are simply not inserted and the handler still
answers with the insert result (the new id). -/
def createRequest (notifyFails : Bool) (body : ReqBody) (today : String)
    (now : Nat) (db : DB) : DB × Except ApiErr Nat :=
  if isPastDate body.donationDate today then
    (db, .error (.badRequest "Donation date cannot be in the past."))
  else
    let rid := db.nextReqId
    let newReq : Request :=
      { rid := rid, requesterEmail := body.requesterEmail,
        bloodGroup := body.bloodGroup,
        recipientDistrict := body.recipientDistrict,
        donationDate := body.donationDate,
        donationStatus := "pending", createdAt := now }
    let db1 : DB :=
      { db with requests := db.requests ++ [newReq], nextReqId := rid + 1 }
    let db2 :=
      if notifyFails then db1
      else
        let recipients := db1.users.filter
          (matchRecipient newReq.bloodGroup newReq.recipientDistrict)
        insertNotifMany (recipients.map (fanoutItem newReq)) now db1
    (db2, .ok rid)

/-- The body of `PATCH /donation-requests/:id`: a partial update;
`none` means the field is absent from the patch (`$set` only touches
present fields; the handler deletes `_id` from the `$set`). -/
structure ReqPatch where
  donationStatus : Option String := none
  donationDate : Option String := none
  requesterEmail : Option String := none
  deriving Repr, DecidableEq

/-- `$set { ...body }` applied to a request document. -/
def applyReqPatch (p : ReqPatch) (r : Request) : Request :=
  { r with
    donationStatus := p.donationStatus.getD r.donationStatus,
    donationDate := match p.donationDate with
      | some d => some d
      | none => r.donationDate,
    requesterEmail := p.requesterEmail.getD r.requesterEmail }

/-- JavaScript truthiness of `body.donationStatus` (`if
(body.donationStatus)`): present and non-empty. -/
def truthyStatus (p : ReqPatch) : Option String :=
  match p.donationStatus with
  | some s => if s == "" then none else some s
  | none => none

/-- The `try` block of `PATCH /donation-requests/:id`: if the patch
carries a truthy `donationStatus`, re-read the (already updated)
request by id and insert one notification to its stored
`requesterEmail` describing the new status. -/
def statusNotifyPhase (id : Nat) (p : ReqPatch) (now : Nat) (d : DB) : DB :=
  match truthyStatus p with
  | none => d
  | some st =>
    match d.requests.find? (fun r => r.rid == id) with
    | none => d
    | some request =>
      insertNotif request.requesterEmail
        ("Your blood request status has updated to: " ++ st) none now d

/-- `PATCH /donation-requests/:id` — if the patch sets `donationStatus`
to `"inprogress"`, look up the stored request and reject with 400 when
its stored `donationDate` is before today; otherwise apply the patch
with `updateOne`, and then run `statusNotifyPhase` inside a
`try/catch`, modelled by `notifyFails` as in `createRequest`.  The
response is the `updateOne` result, modelled as its `matchedCount`. -/
def updateStatus (notifyFails : Bool) (id : Nat) (p : ReqPatch)
    (today : String) (now : Nat) (db : DB) : DB × Except ApiErr Nat :=
  if p.donationStatus == some "inprogress" &&
      (match db.requests.find? (fun r => r.rid == id) with
       | some checkRequest => dateLt checkRequest.donationDate today
       | none => false) then
    (db, .error (.badRequest "Cannot donate to an expired request."))
  else
    let db1 : DB :=
      { db with requests :=
          updateFirst (fun r => r.rid == id) (applyReqPatch p) db.requests }
    let matched := if db.requests.any (fun r => r.rid == id) then 1 else 0
    let db2 := if notifyFails then db1 else statusNotifyPhase id p now db1
    (db2, .ok matched)

/-- `GET /donation-requests/:id` — fetch one request; if it is pending
and past-due, `updateOne` it to `expired` and return it with the
rewritten status. -/
def getOne (id : Nat) (today : String) (db : DB) : DB × Option Request :=
  match db.requests.find? (fun r => r.rid == id) with
  | none => (db, none)
  | some request =>
    if request.donationStatus == "pending" && dateLt request.donationDate today
    then
      ({ db with requests :=
           (updateFirst (fun r => r.rid == id)
             (fun r => { r with donationStatus := "expired" }) db.requests) },
       some { request with donationStatus := "expired" })
    else (db, some request)

/-- The body of `PATCH /users/:email`: a partial self-update.  The
handler overwrites `role` and `email` with `undefined` and strips
`undefined` keys, so those two fields never reach the `$set`; every
other supplied field does. -/
structure UserPatch where
  name : Option String := none
  role : Option String := none
  status : Option String := none
  email : Option String := none
  bloodGroup : Option String := none
  district : Option String := none
  upazila : Option String := none
  deriving Repr, DecidableEq

/-- The `$set` of the self-update after `role` and `email` have been
stripped: all remaining present fields are applied, `status`
included. -/
def applySelfPatch (p : UserPatch) (u : User) : User :=
  { u with
    name := p.name.getD u.name,
    status := p.status.getD u.status,
    bloodGroup := p.bloodGroup.getD u.bloodGroup,
    district := p.district.getD u.district,
    upazila := p.upazila.getD u.upazila }

/-- `PATCH /users/:email` — `updateOne` on `{ email }` with the
stripped `$set`; the response is modelled as the `matchedCount`. -/
def selfUpdate (email : String) (p : UserPatch) (db : DB) : DB × Nat :=
  ({ db with users :=
       (updateFirst (fun u => u.email == email) (applySelfPatch p) db.users) },
   if db.users.any (fun u => u.email == email) then 1 else 0)

/-- `PATCH /notifications/:id` — mark one notification read.  The
handler uses the verified token only for authentication: `caller` is
never consulted, and there is no ownership check. -/
def markRead (caller : String) (id : Nat) (db : DB) :
    DB × Except ApiErr Nat :=
  let _ := caller
  ({ db with notifs :=
       (updateFirst (fun n => n.nid == id)
         (fun n => { n with isRead := true }) db.notifs) },
   .ok (if db.notifs.any (fun n => n.nid == id) then 1 else 0))

/-- `PATCH /notifications/mark-all-read/user?email=` — 403 unless the
token email equals the query email; then `updateMany` `{ email }` with
`$set { isRead: true }`. -/
def markAllRead (caller email : String) (db : DB) :
    DB × Except ApiErr Nat :=
  if caller ≠ email then (db, .error .forbidden)
  else
    ({ db with notifs := db.notifs.map (fun n =>
         if n.email == email then { n with isRead := true } else n) },
     .ok ((db.notifs.filter (fun n => n.email == email)).length))

/-! ### Concrete sample data (used by witnesses and counterexamples) -/

def emptyDB : DB :=
  { users := [], requests := [], notifs := [], nextReqId := 0,
    nextNotifId := 0 }

def sampleDonor : User :=
  { email := "donor@vein.app", name := "Donor", role := "donor",
    status := "active", bloodGroup := "O+", district := "Dhaka",
    upazila := "Savar" }

/-- An active user whose role merely *contains* "admin". -/
def superAdmin : User :=
  { email := "super@vein.app", name := "Super", role := "superadmin",
    status := "active", bloodGroup := "AB-", district := "Khulna",
    upazila := "Dumuria" }

def dbDonor : DB := { emptyDB with users := [sampleDonor] }

def dbSuper : DB := { emptyDB with users := [superAdmin] }

def sampleBody : ReqBody :=
  { requesterEmail := "req@vein.app", bloodGroup := "O+",
    recipientDistrict := "Dhaka", donationDate := some "2025-07-01" }

def sampleReq : Request :=
  { rid := 0, requesterEmail := "owner@vein.app", bloodGroup := "O+",
    recipientDistrict := "Dhaka", donationDate := some "2025-07-01",
    donationStatus := "pending", createdAt := 1 }

def pastReq : Request := { sampleReq with donationDate := some "2025-01-01" }

def dbWithReq : DB := { emptyDB with requests := [sampleReq], nextReqId := 1 }

def dbWithPastReq : DB :=
  { emptyDB with requests := [pastReq], nextReqId := 1 }

def sampleNotif : Notif :=
  { nid := 0, email := "owner@vein.app", message := "m", link := none,
    isRead := false, createdAt := 1 }

def dbNotifs : DB :=
  { emptyDB with
    notifs := [sampleNotif,
               { sampleNotif with nid := 1, email := "other@vein.app" },
               { sampleNotif with nid := 2, isRead := true }],
    nextNotifId := 3 }

/-! ### Helper lemmas -/

theorem mem_insertByCreatedAtDesc {a r : Request} {l : List Request} :
    a ∈ insertByCreatedAtDesc r l ↔ a = r ∨ a ∈ l := by
  induction l with
  | nil => simp [insertByCreatedAtDesc]
  | cons x xs ih =>
    by_cases h : r.createdAt ≤ x.createdAt
    · simp only [insertByCreatedAtDesc, if_pos h, List.mem_cons, ih]
      tauto
    · simp only [insertByCreatedAtDesc, if_neg h, List.mem_cons]

theorem mem_sortByCreatedAtDesc {a : Request} {l : List Request} :
    a ∈ sortByCreatedAtDesc l ↔ a ∈ l := by
  induction l with
  | nil => simp [sortByCreatedAtDesc]
  | cons x xs ih => simp [sortByCreatedAtDesc, mem_insertByCreatedAtDesc, ih]

theorem updateFirst_of_no_match (p : α → Bool) (f : α → α) (l : List α)
    (h : ∀ x ∈ l, p x = false) : updateFirst p f l = l := by
  induction l with
  | nil => rfl
  | cons x xs ih =>
    simp only [updateFirst, h x (by simp)]
    simp only [Bool.false_eq_true, if_false, List.cons.injEq, true_and]
    exact ih (fun y hy => h y (by simp [hy]))

theorem find?_updateFirst (p : α → Bool) (f : α → α) (l : List α)
    (hp : ∀ x, p (f x) = p x) :
    (updateFirst p f l).find? p = (l.find? p).map f := by
  induction l with
  | nil => rfl
  | cons x xs ih =>
    by_cases h : p x
    · simp [updateFirst, List.find?, h, hp]
    · simp only [Bool.not_eq_true] at h
      simp [updateFirst, List.find?, h, ih]

theorem getElem?_updateFirst (p : α → Bool) (f : α → α) (l : List α)
    (i : Nat) :
    (updateFirst p f l)[i]? = l[i]? ∨
      (updateFirst p f l)[i]? = (l[i]?).map f := by
  induction l generalizing i with
  | nil => left; rfl
  | cons x xs ih =>
    by_cases h : p x
    · cases i with
      | zero => right; simp [updateFirst, h]
      | succ j => left; simp [updateFirst, h]
    · simp only [Bool.not_eq_true] at h
      cases i with
      | zero => left; simp [updateFirst, h]
      | succ j =>
        simpa [updateFirst, h] using ih j

theorem length_updateFirst (p : α → Bool) (f : α → α) (l : List α) :
    (updateFirst p f l).length = l.length := by
  induction l with
  | nil => rfl
  | cons x xs ih =>
    by_cases h : p x <;> simp [updateFirst, h, ih]

theorem any_eq_true_of_find?_eq_some {p : α → Bool} {l : List α} {a : α}
    (h : l.find? p = some a) : l.any p = true := by
  rw [List.any_eq_true]
  exact ⟨a, List.mem_of_find?_eq_some h, List.find?_some h⟩

/-- The new documents appended by `insertNotifMany`, projected to the
fields the claims speak about: one per item, unread, stamped `now`,
addressed as listed. -/
theorem insertNotifMany_new (items : List (String × String × Option String))
    (now : Nat) (db : DB) :
    ((insertNotifMany items now db).notifs.drop db.notifs.length).map
        (fun n => (n.email, n.isRead, n.createdAt))
      = items.map (fun it => (it.1, false, now)) := by
  unfold insertNotifMany
  rw [List.drop_left, List.map_map]
  have h2 : items.enum.map
      ((fun n : Notif => (n.email, n.isRead, n.createdAt)) ∘
        (fun p => { nid := db.nextNotifId + p.1, email := p.2.1,
                    message := p.2.2.1, link := p.2.2.2, isRead := false,
                    createdAt := now }))
      = items.enum.map ((fun it => (it.1, false, now)) ∘ Prod.snd) := by
    apply List.map_congr_left
    intro a _
    rfl
  rw [h2, ← List.map_map, List.enum_map_snd]

theorem insertNotifMany_length (items : List (String × String × Option String))
    (now : Nat) (db : DB) :
    (insertNotifMany items now db).notifs.length
      = db.notifs.length + items.length := by
  simp [insertNotifMany]

/-- The batch inserted by the creation fan-out, projected to recipient
email, read flag and timestamp: one unread, `now`-stamped notification
per recipient, in order. -/
theorem fanout_new_projection (recips : List User) (nr : Request) (now : Nat)
    (db : DB) :
    ((insertNotifMany (recips.map (fanoutItem nr)) now db).notifs.drop
        db.notifs.length).map (fun n => (n.email, n.isRead, n.createdAt))
      = recips.map (fun u => (u.email, false, now)) := by
  rw [insertNotifMany_new, List.map_map]
  rfl

/-- A request that has gone through the sweep function is never both
pending and past-due. -/
theorem expireIf_no_stale (today : String) (q : Request) :
    (expireIf today q).donationStatus = "pending" →
      dateLt (expireIf today q).donationDate today = false := by
  unfold expireIf
  by_cases h : sweepable today q
  · rw [if_pos h]
    intro hc
    exact absurd hc (by simp)
  · rw [if_neg h]
    intro hp
    unfold sweepable at h
    simp [hp] at h
    exact h

/-! ### Claims -/

/-- C2: every `POST /donation-requests` call whose `donationDate` is a
calendar date (a non-empty ISO date string) strictly before today fails
with HTTP 400 (`ValidationError`) and leaves the store — in particular
the requests collection — unchanged, whether or not the notification
fan-out would fail. -/
theorem create_past_date_rejected (fail : Bool) (body : ReqBody)
    (today : String) (now : Nat) (db : DB) (d : String)
    (hd : body.donationDate = some d) (hne : d ≠ "")
    (hlt : strLt d today = true) :
    createRequest fail body today now db =
      (db, .error (.badRequest "Donation date cannot be in the past.")) := by
  have hpast : isPastDate body.donationDate today = true := by
    simp [isPastDate, hd, hne, hlt]
  unfold createRequest
  rw [hpast]
  simp

/-- Witness for C2 at a concrete past-dated creation call. -/
theorem create_past_date_rejected_witness :
    createRequest false { sampleBody with donationDate := some "2025-01-01" }
        "2025-06-01" 5 dbDonor =
      (dbDonor, .error (.badRequest "Donation date cannot be in the past.")) :=
  create_past_date_rejected false _ "2025-06-01" 5 dbDonor "2025-01-01"
    rfl (by decide) (by decide)

/-- C3: every `PATCH /donation-requests/:id` call whose patch sets
`donationStatus` to `"inprogress"` fails with HTTP 400 and leaves the
store unchanged whenever the *stored* request's `donationDate` is
earlier than today — the check reads the current record, and holds for
every patch body (in particular for any `donationDate` the patch itself
may carry). -/
theorem inprogress_past_due_rejected (fail : Bool) (id : Nat) (p : ReqPatch)
    (today : String) (now : Nat) (db : DB) (req : Request)
    (hs : p.donationStatus = some "inprogress")
    (hfind : db.requests.find? (fun r => r.rid == id) = some req)
    (hpast : dateLt req.donationDate today = true) :
    updateStatus fail id p today now db =
      (db, .error (.badRequest "Cannot donate to an expired request.")) := by
  unfold updateStatus
  rw [hfind]
  simp [hs, hpast]

/-- Witness for C3: the stored request is past-due, the patch proposes
a future date, and the call is still rejected. -/
theorem inprogress_past_due_rejected_witness :
    updateStatus false 0
        { donationStatus := some "inprogress",
          donationDate := some "2025-12-31" } "2025-06-01" 9 dbWithPastReq =
      (dbWithPastReq,
       .error (.badRequest "Cannot donate to an expired request.")) :=
  inprogress_past_due_rejected false 0 _ "2025-06-01" 9 dbWithPastReq pastReq
    rfl (by decide) (by decide)

/-- C10 (implicit): `PATCH /notifications/:id` performs no ownership
check: for every authenticated caller and every id it never answers
Forbidden, its outcome does not depend on who the caller is, the first
notification the id resolves to gets `isRead := true`, and when the id
resolves to nothing the store is untouched. -/
theorem markRead_no_ownership_check (caller other : String) (id : Nat)
    (db : DB) :
    (markRead caller id db).2 ≠ .error .forbidden
  ∧ markRead caller id db = markRead other id db
  ∧ (markRead caller id db).1.notifs.find? (fun n => n.nid == id)
      = (db.notifs.find? (fun n => n.nid == id)).map
          (fun n => { n with isRead := true })
  ∧ ((∀ n ∈ db.notifs, n.nid ≠ id) → (markRead caller id db).1 = db) := by
  refine ⟨by simp [markRead], rfl, ?_, ?_⟩
  · exact find?_updateFirst _ _ _ (fun x => rfl)
  · intro h
    have hno : updateFirst (fun n => n.nid == id)
        (fun n => { n with isRead := true }) db.notifs = db.notifs :=
      updateFirst_of_no_match _ _ _ (fun x hx => by simpa using h x hx)
    simp [markRead, hno]

/-- Witness for C10: a caller who owns none of the notifications marks
another user's notification read without a Forbidden answer. -/
theorem markRead_no_ownership_check_witness :
    (markRead "stranger@vein.app" 1 dbNotifs).2 ≠ .error .forbidden
  ∧ ((markRead "stranger@vein.app" 99 dbNotifs).1 = dbNotifs) := by
  have h := markRead_no_ownership_check "stranger@vein.app" "x@vein.app" 1
    dbNotifs
  have h99 := markRead_no_ownership_check "stranger@vein.app" "x@vein.app" 99
    dbNotifs
  exact ⟨h.1, h99.2.2.2 (by decide)⟩

/-- C8: `PATCH /notifications/mark-all-read/user` answers Forbidden
(leaving the store untouched) unless the caller's email equals the
target email; on success every notification of the target user ends up
read — an unread one flips `isRead` and keeps every other field, an
already-read one keeps all its field values — and notifications of
every other user are left exactly as they were. -/
theorem markAllRead_frame (caller email : String) (db : DB) :
    (caller ≠ email → markAllRead caller email db = (db, .error .forbidden))
  ∧ (caller = email → ∀ (i : Nat) (n : Notif), db.notifs[i]? = some n →
      ∃ m, (markAllRead caller email db).1.notifs[i]? = some m
        ∧ (n.email = email →
            m.isRead = true ∧ m.nid = n.nid ∧ m.email = n.email
            ∧ m.message = n.message ∧ m.link = n.link
            ∧ m.createdAt = n.createdAt)
        ∧ (n.email = email → n.isRead = true → m = n)
        ∧ (n.email ≠ email → m = n)) := by
  constructor
  · intro h
    simp [markAllRead, h]
  · intro h i n hn
    have hnot : (markAllRead caller email db).1.notifs
        = db.notifs.map (fun n =>
            if n.email == email then { n with isRead := true } else n) := by
      simp [markAllRead, h]
    refine ⟨if n.email == email then { n with isRead := true } else n,
      ?_, ?_, ?_, ?_⟩
    · rw [hnot, List.getElem?_map _ _ i, hn]
      rfl
    · intro he
      simp [he]
    · intro he hr
      simp only [he, beq_self_eq_true, if_true]
      cases n
      simp_all
    · intro he
      simp [he]

/-- Witness for C8: the mismatched caller is rejected, the target's
unread notification is read afterwards, and the other user's
notification is unchanged. -/
theorem markAllRead_frame_witness :
    markAllRead "other@vein.app" "owner@vein.app" dbNotifs =
        (dbNotifs, .error .forbidden)
  ∧ (∃ m, (markAllRead "owner@vein.app" "owner@vein.app" dbNotifs).1.notifs[0]?
        = some m ∧ m.isRead = true)
  ∧ (markAllRead "owner@vein.app" "owner@vein.app" dbNotifs).1.notifs[1]?
      = some { sampleNotif with nid := 1, email := "other@vein.app" } := by
  have h1 := (markAllRead_frame "other@vein.app" "owner@vein.app" dbNotifs).1
    (by decide)
  have h2 := (markAllRead_frame "owner@vein.app" "owner@vein.app" dbNotifs).2
    rfl
  have h2a := h2 0 sampleNotif (by decide)
  have h2b := h2 1 { sampleNotif with nid := 1, email := "other@vein.app" }
    (by decide)
  refine ⟨h1, ?_, ?_⟩
  · obtain ⟨m, hm, hm1, -, -⟩ := h2a
    exact ⟨m, hm, (hm1 rfl).1⟩
  · obtain ⟨m, hm, -, -, hm3⟩ := h2b
    rw [hm, hm3 (by decide)]

/-- C9: lazy expiry on `GET /donation-requests/:id` is idempotent: a
fetch of a pending past-due request answers it with status rewritten to
`expired` and persists that status; a second fetch of the same id
answers the expired record and leaves the store exactly as it was; and
fetching a request that is already expired (more generally, not
pending) changes nothing. -/
theorem getOne_lazy_expiry_idempotent (id : Nat) (today : String) (db : DB)
    (req : Request)
    (hfind : db.requests.find? (fun r => r.rid == id) = some req) :
    (req.donationStatus = "pending" → dateLt req.donationDate today = true →
       (getOne id today db).2 = some { req with donationStatus := "expired" }
       ∧ (getOne id today db).1.requests.find? (fun r => r.rid == id)
           = some { req with donationStatus := "expired" }
       ∧ getOne id today (getOne id today db).1
           = ((getOne id today db).1,
              some { req with donationStatus := "expired" }))
  ∧ (req.donationStatus ≠ "pending" → getOne id today db = (db, some req)) := by
  constructor
  · intro hp hlt
    have hfst : (getOne id today db).1.requests
        = updateFirst (fun r => r.rid == id)
            (fun r => { r with donationStatus := "expired" }) db.requests := by
      simp [getOne, hfind, hp, hlt]
    have hfind2 : (getOne id today db).1.requests.find? (fun r => r.rid == id)
        = some { req with donationStatus := "expired" } := by
      rw [hfst,
        find?_updateFirst (fun r => r.rid == id)
          (fun r => { r with donationStatus := "expired" }) db.requests
          (fun x => rfl),
        hfind]
      rfl
    refine ⟨?_, hfind2, ?_⟩
    · simp [getOne, hfind, hp, hlt]
    · generalize hg : (getOne id today db).1 = s1 at hfind2 ⊢
      simp [getOne, hfind2]
  · intro hp
    have hcond : (req.donationStatus == "pending"
        && dateLt req.donationDate today) = false := by
      simp [hp]
    simp [getOne, hfind, hcond]

/-- Witness for C9 at a concrete pending past-due request and at an
already-expired one. -/
theorem getOne_lazy_expiry_idempotent_witness :
    ((getOne 0 "2025-06-01" dbWithPastReq).2
        = some { pastReq with donationStatus := "expired" }
     ∧ getOne 0 "2025-06-01" (getOne 0 "2025-06-01" dbWithPastReq).1
        = ((getOne 0 "2025-06-01" dbWithPastReq).1,
           some { pastReq with donationStatus := "expired" }))
  ∧ getOne 0 "2025-06-01"
        { dbWithPastReq with
          requests := [{ pastReq with donationStatus := "expired" }] }
      = ({ dbWithPastReq with
           requests := [{ pastReq with donationStatus := "expired" }] },
         some { pastReq with donationStatus := "expired" }) := by
  have h1 := getOne_lazy_expiry_idempotent 0 "2025-06-01" dbWithPastReq
    pastReq (by decide)
  have h2 := getOne_lazy_expiry_idempotent 0 "2025-06-01"
    { dbWithPastReq with
      requests := [{ pastReq with donationStatus := "expired" }] }
    { pastReq with donationStatus := "expired" } (by decide)
  have h1a := h1.1 rfl (by decide)
  exact ⟨⟨h1a.1, h1a.2.2⟩, h2.2 (by decide)⟩

/-- C1: `GET /donation-requests` sweeps every pending past-due request
to `expired` before returning, so neither the returned list nor the
stored collection holds a request that is both pending and past-due;
`GET /donation-requests/my` answers Forbidden (leaving the store
untouched) when the query email differs from the caller's, otherwise
returns the owner's requests with the same guarantee, and its sweep is
restricted to the owner: any stored request of a different owner keeps
exactly its old value. -/
theorem list_routes_sweep_stale_pending (caller email today : String)
    (db : DB) :
    (∀ r ∈ (listAll today db).2,
       r.donationStatus = "pending" → dateLt r.donationDate today = false)
  ∧ (∀ r ∈ (listAll today db).1.requests,
       r.donationStatus = "pending" → dateLt r.donationDate today = false)
  ∧ (caller ≠ email → listMine caller email today db = (db, .error .forbidden))
  ∧ (∀ l, (listMine caller email today db).2 = .ok l →
       ∀ r ∈ l,
         r.donationStatus = "pending" → dateLt r.donationDate today = false)
  ∧ (∀ (i : Nat) (r : Request), db.requests[i]? = some r →
       r.requesterEmail ≠ email →
       (listMine caller email today db).1.requests[i]? = some r) := by
  refine ⟨?_, ?_, ?_, ?_, ?_⟩
  · intro r hr
    rw [show (listAll today db).2
          = sortByCreatedAtDesc (db.requests.map (expireIf today)) from rfl,
        mem_sortByCreatedAtDesc, List.mem_map] at hr
    obtain ⟨q, -, rfl⟩ := hr
    exact expireIf_no_stale today q
  · intro r hr
    rw [show (listAll today db).1.requests
          = db.requests.map (expireIf today) from rfl, List.mem_map] at hr
    obtain ⟨q, -, rfl⟩ := hr
    exact expireIf_no_stale today q
  · intro h
    simp [listMine, h]
  · intro l hl r hr
    by_cases h : caller = email
    · have hok : l = (db.requests.map (fun r =>
          if r.requesterEmail == email then expireIf today r else r)).filter
            (fun r => r.requesterEmail == email) := by
        have : (listMine caller email today db).2 = .ok ((db.requests.map
            (fun r => if r.requesterEmail == email then expireIf today r
                      else r)).filter (fun r => r.requesterEmail == email)) :=
          by simp [listMine, h]
        rw [this] at hl
        exact (Except.ok.injEq _ _ ▸ hl).symm
      subst hok
      rw [List.mem_filter] at hr
      obtain ⟨hmem, howner⟩ := hr
      rw [List.mem_map] at hmem
      obtain ⟨q, -, rfl⟩ := hmem
      by_cases hq : q.requesterEmail == email
      · rw [if_pos hq] at howner ⊢
        exact expireIf_no_stale today q
      · rw [if_neg hq] at howner
        exact absurd howner hq
    · rw [show (listMine caller email today db).2 = .error .forbidden from
          by simp [listMine, h]] at hl
      cases hl
  · intro i r hi howner
    by_cases h : caller = email
    · have hst : (listMine caller email today db).1.requests
          = db.requests.map (fun r =>
              if r.requesterEmail == email then expireIf today r else r) := by
        simp [listMine, h]
      rw [hst, List.getElem?_map _ _ i, hi]
      subst h
      simp [howner]
    · rw [show (listMine caller email today db).1 = db from
          by simp [listMine, h]]
      exact hi

/-- Witness for C1: the mismatched caller is rejected; the owner's
past-due pending request comes back expired from both list routes; a
different owner's past-due pending request survives the `my` sweep
untouched. -/
theorem list_routes_sweep_stale_pending_witness :
    listMine "other@vein.app" "owner@vein.app" "2025-06-01" dbWithPastReq
      = (dbWithPastReq, .error .forbidden)
  ∧ (∀ r ∈ (listAll "2025-06-01" dbWithPastReq).2,
       r.donationStatus = "pending" →
         dateLt r.donationDate "2025-06-01" = false)
  ∧ (listMine "owner@vein.app" "stranger@vein.app" "2025-06-01"
        dbWithPastReq).1.requests[0]? = some pastReq := by
  have h1 := list_routes_sweep_stale_pending "other@vein.app"
    "owner@vein.app" "2025-06-01" dbWithPastReq
  have h2 := list_routes_sweep_stale_pending "owner@vein.app"
    "stranger@vein.app" "2025-06-01" dbWithPastReq
  exact ⟨h1.2.2.1 (by decide), h1.1, h2.2.2.2.2 0 pastReq (by decide)
    (by decide)⟩

/-- C4 counterexample: the claim reads the recipient set as active
donors with identical bloodGroup+district plus active users whose role
*is* (case-insensitively) `admin` or `volunteer`.  The code's query
uses the regexes `/admin/i` and `/volunteer/i`, i.e. case-insensitive
*containment*: an active user with role `"superadmin"` is not matched
by the claim's description, yet a successful creation inserts a
notification addressed to them. -/
theorem fanout_role_regex_cex :
    specMatchRecipient "O+" "Dhaka" superAdmin = false
  ∧ superAdmin.status = "active"
  ∧ (createRequest false sampleBody "2025-06-01" 5 dbSuper).1.notifs.map
      (fun n => n.email) = [superAdmin.email] := by
  refine ⟨by decide, rfl, ?_⟩
  decide

/-- C4 (amended): for every successful creation, exactly one
notification — unread and stamped with the creation time — is inserted
per recipient matched by the code's query: active donors whose
bloodGroup and district equal the request's, together with all active
users whose role *contains* `admin` or `volunteer` case-insensitively
(`/admin/i`, `/volunteer/i`; on the canonical roles this coincides with
case-insensitive equality).  An empty matched set inserts nothing, and
creation still succeeds. -/
theorem fanout_one_per_matched (body : ReqBody) (today : String) (now : Nat)
    (db : DB) (hdate : isPastDate body.donationDate today = false) :
    (createRequest false body today now db).2 = .ok db.nextReqId
  ∧ (createRequest false body today now db).1.notifs.length
      = db.notifs.length + (db.users.filter
          (matchRecipient body.bloodGroup body.recipientDistrict)).length
  ∧ ((createRequest false body today now db).1.notifs.drop
        db.notifs.length).map (fun n => (n.email, n.isRead, n.createdAt))
      = (db.users.filter
          (matchRecipient body.bloodGroup body.recipientDistrict)).map
          (fun u => (u.email, false, now))
  ∧ (db.users.filter (matchRecipient body.bloodGroup body.recipientDistrict)
        = [] →
      (createRequest false body today now db).1.notifs = db.notifs) := by
  simp only [createRequest, hdate, Bool.false_eq_true, if_false]
  refine ⟨trivial, ?_, ?_, ?_⟩
  · rw [insertNotifMany_length, List.length_map]
  · exact fanout_new_projection _ _ now _
  · intro hempty
    rw [hempty]
    simp [insertNotifMany]

/-- Witness for C4 (amended) at a concrete creation matching one active
donor. -/
theorem fanout_one_per_matched_witness :
    (createRequest false sampleBody "2025-06-01" 5 dbDonor).2 = .ok 0
  ∧ ((createRequest false sampleBody "2025-06-01" 5 dbDonor).1.notifs.drop
        0).map (fun n => (n.email, n.isRead, n.createdAt))
      = [(sampleDonor.email, false, 5)] := by
  have h := fanout_one_per_matched sampleBody "2025-06-01" 5 dbDonor
    (by decide)
  refine ⟨h.1, ?_⟩
  rw [show dbDonor.notifs.length = 0 from rfl] at h
  rw [h.2.2.1]
  decide

/-- C5 counterexample: the self-update handler strips only `role` and
`email` from the patch before `$set`; `status` is *not* stripped, so a
self-update patch carrying `status` changes the stored status — the
claim that role *and status* are unchanged fails on a patch setting
`status := "blocked"` for an active user. -/
theorem selfUpdate_status_writable_cex :
    sampleDonor.status = "active"
  ∧ (selfUpdate sampleDonor.email { status := some "blocked" } dbDonor).1.users.map
      (fun u => u.status) = ["blocked"] := by
  exact ⟨rfl, by decide⟩

/-- C5 (amended): for every self-update call with any patch body, the
stored users' `role` and `email` fields are unchanged (the handler
overwrites those two patch keys with `undefined` and drops them); every
other supplied field — `status` included — is applied. -/
theorem selfUpdate_preserves_role_email (email : String) (p : UserPatch)
    (db : DB) :
    ∀ (i : Nat) (u : User), db.users[i]? = some u →
      ∃ v, (selfUpdate email p db).1.users[i]? = some v
        ∧ v.role = u.role ∧ v.email = u.email := by
  intro i u hu
  rcases getElem?_updateFirst (fun v => v.email == email) (applySelfPatch p)
      db.users i with h | h
  · exact ⟨u, by rw [show (selfUpdate email p db).1.users
      = updateFirst (fun v => v.email == email) (applySelfPatch p) db.users
      from rfl, h, hu], rfl, rfl⟩
  · refine ⟨applySelfPatch p u, ?_, rfl, rfl⟩
    rw [show (selfUpdate email p db).1.users
      = updateFirst (fun v => v.email == email) (applySelfPatch p) db.users
      from rfl, h, hu]
    rfl

/-- Witness for C5 (amended): the patch of the counterexample leaves
the stored role and email intact. -/
theorem selfUpdate_preserves_role_email_witness :
    ∃ v, (selfUpdate sampleDonor.email { status := some "blocked" }
        dbDonor).1.users[0]? = some v
      ∧ v.role = sampleDonor.role ∧ v.email = sampleDonor.email :=
  selfUpdate_preserves_role_email sampleDonor.email
    { status := some "blocked" } dbDonor 0 sampleDonor (by decide)

/-- C6: notification fan-out failures are invisible to the caller of
the triggering operation: for creation and for status update, the
requests collection and the HTTP response are identical whether or not
the `try` block around the notification work throws, and a successful
creation's inserted request stays in the store (never rolled back) even
when its fan-out fails. -/
theorem fanout_failure_isolated (fail : Bool) (body : ReqBody) (id : Nat)
    (p : ReqPatch) (today : String) (now : Nat) (db : DB) :
    (createRequest fail body today now db).1.requests
        = (createRequest false body today now db).1.requests
  ∧ (createRequest fail body today now db).2
        = (createRequest false body today now db).2
  ∧ (∀ rid, (createRequest fail body today now db).2 = .ok rid →
       ∃ r ∈ (createRequest fail body today now db).1.requests,
         r.rid = rid ∧ r.donationStatus = "pending")
  ∧ (updateStatus fail id p today now db).1.requests
        = (updateStatus false id p today now db).1.requests
  ∧ (updateStatus fail id p today now db).2
        = (updateStatus false id p today now db).2 := by
  have hcreq : ∀ b, (createRequest b body today now db).1.requests
      = (createRequest false body today now db).1.requests := by
    intro b
    by_cases hd : isPastDate body.donationDate today
    · simp [createRequest, hd]
    · rw [Bool.not_eq_true] at hd
      cases b <;> simp [createRequest, hd, insertNotifMany]
  have hcres : ∀ b, (createRequest b body today now db).2
      = (createRequest false body today now db).2 := by
    intro b
    by_cases hd : isPastDate body.donationDate today
    · simp [createRequest, hd]
    · rw [Bool.not_eq_true] at hd
      cases b <;> simp [createRequest, hd]
  have hphase : ∀ d : DB, (statusNotifyPhase id p now d).requests
      = d.requests := by
    intro d
    unfold statusNotifyPhase
    cases truthyStatus p with
    | none => rfl
    | some st =>
      cases d.requests.find? (fun r => r.rid == id) with
      | none => rfl
      | some req => rfl
  have hureq : ∀ b, (updateStatus b id p today now db).1.requests
      = (updateStatus false id p today now db).1.requests := by
    intro b
    unfold updateStatus
    by_cases hg : (p.donationStatus == some "inprogress" &&
        (match db.requests.find? (fun r => r.rid == id) with
         | some checkRequest => dateLt checkRequest.donationDate today
         | none => false)) = true
    · rw [if_pos hg, if_pos hg]
    · rw [if_neg hg, if_neg hg]
      cases b
      · rfl
      · exact (hphase _).symm
  have hures : ∀ b, (updateStatus b id p today now db).2
      = (updateStatus false id p today now db).2 := by
    intro b
    unfold updateStatus
    by_cases hg : (p.donationStatus == some "inprogress" &&
        (match db.requests.find? (fun r => r.rid == id) with
         | some checkRequest => dateLt checkRequest.donationDate today
         | none => false)) = true
    · rw [if_pos hg, if_pos hg]
    · rw [if_neg hg, if_neg hg]
  refine ⟨hcreq fail, hcres fail, ?_, hureq fail, hures fail⟩
  intro rid hok
  rw [hcres fail] at hok
  by_cases hd : isPastDate body.donationDate today
  · rw [show (createRequest false body today now db).2
        = .error (.badRequest "Donation date cannot be in the past.") from
        by simp [createRequest, hd]] at hok
    cases hok
  · rw [Bool.not_eq_true] at hd
    have : rid = db.nextReqId := by
      rw [show (createRequest false body today now db).2
          = .ok db.nextReqId from by simp [createRequest, hd]] at hok
      cases hok
      rfl
    subst this
    rw [hcreq fail]
    refine ⟨{ rid := db.nextReqId, requesterEmail := body.requesterEmail,
              bloodGroup := body.bloodGroup,
              recipientDistrict := body.recipientDistrict,
              donationDate := body.donationDate,
              donationStatus := "pending", createdAt := now }, ?_, rfl, rfl⟩
    rw [show (createRequest false body today now db).1.requests
        = db.requests ++ [{ rid := db.nextReqId,
                            requesterEmail := body.requesterEmail,
                            bloodGroup := body.bloodGroup,
                            recipientDistrict := body.recipientDistrict,
                            donationDate := body.donationDate,
                            donationStatus := "pending",
                            createdAt := now }] from
        by simp [createRequest, hd, insertNotifMany]]
    simp

/-- Witness for C6: with one matched recipient, a failing fan-out and a
successful one produce the same requests collection and the same
response, and the created request is present. -/
theorem fanout_failure_isolated_witness :
    (createRequest true sampleBody "2025-06-01" 5 dbDonor).1.requests
        = (createRequest false sampleBody "2025-06-01" 5 dbDonor).1.requests
  ∧ (∃ r ∈ (createRequest true sampleBody "2025-06-01" 5 dbDonor).1.requests,
       r.rid = 0 ∧ r.donationStatus = "pending") := by
  have h := fanout_failure_isolated true sampleBody 0 {} "2025-06-01" 5
    dbDonor
  exact ⟨h.1, h.2.2.1 0 (by rfl)⟩

/-- C7 counterexample: the status-change notification is built from the
request re-read *after* the patch is applied, so (a) a patch that also
rewrites `requesterEmail` sends the notification to the new owner, not
the original one, and (b) an `inprogress` patch on an existing past-due
request is rejected and inserts no notification at all, although it
"includes a donationStatus change" and its target exists. -/
theorem statusNotify_post_patch_owner_cex :
    sampleReq.requesterEmail = "owner@vein.app"
  ∧ (updateStatus false 0
        { donationStatus := some "done",
          requesterEmail := some "new@vein.app" } "2025-06-01" 9
        dbWithReq).1.notifs.map (fun n => n.email) = ["new@vein.app"]
  ∧ (dbWithPastReq.requests.find? (fun r => r.rid == 0)).isSome = true
  ∧ (updateStatus false 0 { donationStatus := some "inprogress" }
        "2025-06-01" 9 dbWithPastReq).1.notifs = [] := by
  exact ⟨rfl, by decide, by decide, by decide⟩

/-- C7 (amended): a status-update call whose patch carries a truthy
`donationStatus`, whose target exists, and which is not rejected by the
`inprogress` past-due guard inserts exactly one notification, unread
and stamped `now`, addressed to the `requesterEmail` of the request *as
stored after the patch* (the original owner whenever the patch does not
modify `requesterEmail`), with a message naming the new status; the
creation-time broadcast recipients get nothing new, and a patch without
a `donationStatus` field inserts no notification. -/
theorem statusNotify_targeted (id : Nat) (p : ReqPatch) (today : String)
    (now : Nat) (db : DB) :
    (∀ (req : Request) (st : String),
       db.requests.find? (fun r => r.rid == id) = some req →
       truthyStatus p = some st →
       ¬(p.donationStatus = some "inprogress"
          ∧ dateLt req.donationDate today = true) →
       (updateStatus false id p today now db).1.notifs
         = db.notifs ++ [{ nid := db.nextNotifId,
                           email := (applyReqPatch p req).requesterEmail,
                           message :=
                             "Your blood request status has updated to: "
                               ++ st,
                           link := none, isRead := false,
                           createdAt := now }]
       ∧ (updateStatus false id p today now db).2 = .ok 1)
  ∧ (p.donationStatus = none →
       (updateStatus false id p today now db).1.notifs = db.notifs) := by
  constructor
  · intro req st hfind hst hnot
    have hg : (p.donationStatus == some "inprogress" &&
        (match db.requests.find? (fun r => r.rid == id) with
         | some checkRequest => dateLt checkRequest.donationDate today
         | none => false)) = false := by
      by_cases hps : p.donationStatus = some "inprogress"
      · have hdl : dateLt req.donationDate today = false := by
          cases hdl2 : dateLt req.donationDate today
          · rfl
          · exact absurd ⟨hps, hdl2⟩ hnot
        rw [hfind]
        simp [hps, hdl]
      · simp [hps]
    have hmatched : (db.requests.any (fun r => r.rid == id)) = true :=
      any_eq_true_of_find?_eq_some hfind
    have hfind1 : (updateFirst (fun r => r.rid == id) (applyReqPatch p)
          db.requests).find? (fun r => r.rid == id)
        = some (applyReqPatch p req) := by
      rw [find?_updateFirst (fun r => r.rid == id) (applyReqPatch p)
            db.requests (fun x => rfl), hfind]
      rfl
    constructor
    · simp only [updateStatus, hg, Bool.false_eq_true, if_false,
        statusNotifyPhase, hst, hfind1, insertNotif]
    · simp only [updateStatus, hg, Bool.false_eq_true, if_false, hmatched,
        if_true]
  · intro h
    simp [updateStatus, statusNotifyPhase, truthyStatus, h]

/-- Witness for C7 (amended) at a concrete patch that changes both the
status and the owner of an existing request. -/
theorem statusNotify_targeted_witness :
    (updateStatus false 0
        { donationStatus := some "done",
          requesterEmail := some "new@vein.app" } "2025-06-01" 9
        dbWithReq).1.notifs
      = [{ nid := 0, email := "new@vein.app",
           message := "Your blood request status has updated to: done",
           link := none, isRead := false, createdAt := 9 }]
  ∧ (updateStatus false 0
        { donationStatus := some "done",
          requesterEmail := some "new@vein.app" } "2025-06-01" 9
        dbWithReq).2 = .ok 1 := by
  have h := (statusNotify_targeted 0
      { donationStatus := some "done",
        requesterEmail := some "new@vein.app" } "2025-06-01" 9
      dbWithReq).1 sampleReq "done" (by decide) rfl (by decide)
  exact ⟨h.1, h.2⟩

end Vein
